import Mathlib

/-!
Shallow embedding of `src/olympia/access/acl.py` (addons-server authorization
core). Python strings are Lean `String`. The two string methods the module
uses with a one-character separator, `str.split(sep)` and
`str.lower().endswith(...)`, are modelled by executable functions over the
string's character list (`pySplit`, `pyLower`, `pyEndsWith`) whose semantics
match Python's: `"".split(",") == [""]`, `"a:b:c".split(":") ==
["a","b","c"]`, the number of parts is the number of separator occurrences
plus one. Python exceptions raised by the acl functions (the
tuple-unpacking `ValueError` in `match_rules`, the `AssertionError` in
`action_allowed_user`, the `AttributeError` from calling `.lower()` on a
non-string) are modelled by `Except AclError`. Constants from modules
outside the excerpt (`olympia.amo`, `django.conf.settings`) are modelled
from the spec where noted.
-/

/-- Exceptions the acl functions can raise. -/
inductive AclError where
  /-- Python `ValueError` from `rule_app, rule_action = rule.split(':')`
  when the split does not yield exactly two parts. -/
  | valueError : AclError
  /-- Python `AssertionError` from
  `assert permission in amo.permissions.PERMISSIONS_LIST`. -/
  | assertionError : AclError
  /-- Python `AttributeError` from calling a string method on a
  non-string value. -/
  | attributeError : AclError
deriving DecidableEq, Repr

/-- Python `str.split(sep)` for a one-character separator, over the
character list: splitting the empty list gives one empty part, a
separator character closes the current part, any other character is
prepended to the first part of the remainder. -/
def pySplitChars (sep : Char) : List Char → List (List Char)
  | [] => [[]]
  | c :: rest =>
    let r := pySplitChars sep rest
    if c = sep then [] :: r
    else
      match r with
      | [] => [[c]]
      | h :: t => (c :: h) :: t

/-- Python `s.split(sep)` for a one-character separator `sep`. -/
def pySplit (s : String) (sep : Char) : List String :=
  (pySplitChars sep s.data).map String.mk

/-- Python `s.lower()` (characterwise lowering; the guids and rule strings
involved are ASCII). -/
def pyLower (s : String) : String :=
  String.mk (s.data.map Char.toLower)

/-- Python `s.endswith(suffix)` for a single string suffix. -/
def pyEndsWith (s suffix : String) : Bool :=
  List.isSuffixOf suffix.data s.data

/-- A permission constant: an (app, action) pair, as in
`constants.permissions`. -/
structure Permission where
  app : String
  action : String
deriving DecidableEq, Repr

/-- Modelled from the spec: `amo.permissions` constant (the constants module
is not under src/); a member of the fixed permissions enumeration. -/
def ADDONS_EDIT : Permission := ⟨"Addons", "Edit"⟩

/-- Modelled from the spec: `amo.permissions` constant. -/
def ADMIN_CURATION : Permission := ⟨"Admin", "Curation"⟩

/-- Modelled from the spec: `amo.permissions` constant. -/
def COLLECTIONS_CONTRIBUTE : Permission := ⟨"Collections", "Contribute"⟩

/-- Modelled from the spec: `amo.permissions` constant. -/
def EXPERIMENTS_SUBMIT : Permission := ⟨"Experiments", "submit"⟩

/-- Modelled from the spec: `amo.permissions` constant. -/
def LANGPACK_SUBMIT : Permission := ⟨"LanguagePack", "Submit"⟩

/-- Modelled from the spec: `amo.permissions` constant. -/
def SYSTEM_ADDON_SUBMIT : Permission := ⟨"SystemAddon", "Submit"⟩

/-- Modelled from the spec: `amo.permissions` constant. -/
def REVIEWS_EDIT : Permission := ⟨"Reviews", "Edit"⟩

/-- Modelled from the spec: `amo.permissions.PERMISSIONS_LIST`, the fixed,
closed enumeration of permission constants (the constants module is not
under src/); membership in this list is what `action_allowed_user`
asserts. -/
def PERMISSIONS_LIST : List Permission :=
  [ADDONS_EDIT, ADMIN_CURATION, COLLECTIONS_CONTRIBUTE, EXPERIMENTS_SUBMIT,
   LANGPACK_SUBMIT, SYSTEM_ADDON_SUBMIT, REVIEWS_EDIT]

/-- A `Group`: the core reads only its comma-separated rule string. -/
structure AclGroup where
  rules : String
deriving DecidableEq, Repr

/-- A user, as the acl functions see it: `is_authenticated`, `id`, and the
cached `groups_list`. -/
structure User where
  id : Nat
  is_authenticated : Bool
  groups_list : List AclGroup
deriving DecidableEq, Repr

/-- A request; the acl functions only read `request.user`. -/
structure Request where
  user : User
deriving DecidableEq, Repr

/-- The loop body of `match_rules` over the already-split list of rules:
`rule_app, rule_action = rule.split(':')` raises `ValueError` unless the
split yields exactly two parts; otherwise the two nested `if`s return
`True` on a match and fall through to the next rule otherwise. -/
def matchRulesList (ruleList : List String) (app action : String) :
    Except AclError Bool :=
  match ruleList with
  | [] => .ok false
  | rule :: rest =>
    match pySplit rule ':' with
    | [rule_app, rule_action] =>
      if (rule_app = "*" ∨ rule_app = app) ∧
          (rule_action = "*" ∨ rule_action = action ∨ action = "%") then
        .ok true
      else
        matchRulesList rest app action
    | _ => .error .valueError

/-- `match_rules(rules, app, action)`: split on `,` and scan. -/
def match_rules (rules app action : String) : Except AclError Bool :=
  matchRulesList (pySplit rules ',') app action

/-- The `any(match_rules(group.rules, ...) for group in user.groups_list)`
generator: short-circuits on the first `True`, propagates any exception
raised before that. -/
def anyGroupsMatch (groups : List AclGroup) (p : Permission) :
    Except AclError Bool :=
  match groups with
  | [] => .ok false
  | g :: gs =>
    match match_rules g.rules p.app p.action with
    | .error e => .error e
    | .ok true => .ok true
    | .ok false => anyGroupsMatch gs p

/-- `action_allowed_user(user, permission)`: unauthenticated users are
denied before the assert; then `assert permission in PERMISSIONS_LIST`;
then OR over the user's groups. -/
def action_allowed_user (user : User) (permission : Permission) :
    Except AclError Bool :=
  if user.is_authenticated = false then .ok false
  else if permission ∈ PERMISSIONS_LIST then
    anyGroupsMatch user.groups_list permission
  else .error .assertionError

/-- `action_allowed(request, permission)`. -/
def action_allowed (request : Request) (permission : Permission) :
    Except AclError Bool :=
  action_allowed_user request.user permission

/-- A Python value stored in the `parsed_addon_data` dict (the acl
predicates read booleans, strings, ints and `None` from it). -/
inductive PyVal where
  | bool : Bool → PyVal
  | str : String → PyVal
  | int : Int → PyVal
  | pyNone : PyVal
deriving DecidableEq, Repr

/-- Python truthiness of a `PyVal` (`bool(v)`). -/
def PyVal.truthy : PyVal → Bool
  | .bool b => b
  | .str s => s ≠ ""
  | .int n => n ≠ 0
  | .pyNone => false

/-- The `parsed_addon_data` dict: an association of string keys to Python
values. -/
structure ParsedAddonData where
  entries : List (String × PyVal)
deriving DecidableEq, Repr

/-- Python `dict.get(key, default)`: the stored value when the key is
present, the supplied default otherwise. -/
def ParsedAddonData.get (d : ParsedAddonData) (key : String)
    (default : PyVal) : PyVal :=
  match d.entries.lookup key with
  | some v => v
  | none => default

/-- `experiments_submission_allowed(user, parsed_addon_data)`:
`not parsed_addon_data.get('is_experiment', False) or
action_allowed_user(user, EXPERIMENTS_SUBMIT)`. -/
def experiments_submission_allowed (user : User) (d : ParsedAddonData) :
    Except AclError Bool :=
  if (d.get "is_experiment" (.bool false)).truthy = false then .ok true
  else action_allowed_user user EXPERIMENTS_SUBMIT

/-- Modelled from the spec: `amo.RESERVED_ADDON_GUIDS`, the reserved
guid-suffix set (the constants module is not under src/). -/
def RESERVED_ADDON_GUIDS : List String :=
  ["@mozilla.org", "@shield.mozilla.org", "@mozilla.com", "@temporary-addon"]

/-- Python `guid.lower().endswith(amo.RESERVED_ADDON_GUIDS)`: `endswith`
with a tuple argument is true when any listed suffix matches. -/
def endsWithReservedGuid (guid : String) : Bool :=
  RESERVED_ADDON_GUIDS.any (fun suffix => pyEndsWith (pyLower guid) suffix)

/-- `reserved_guid_addon_submission_allowed(user, parsed_addon_data)`:
`guid = parsed_addon_data.get('guid') or ''`, then
`not guid.lower().endswith(RESERVED_ADDON_GUIDS) or
action_allowed_user(user, SYSTEM_ADDON_SUBMIT)`; calling `.lower()` on a
truthy non-string value would raise `AttributeError`. -/
def reserved_guid_addon_submission_allowed (user : User)
    (d : ParsedAddonData) : Except AclError Bool :=
  let guidVal := d.get "guid" .pyNone
  let guid := if guidVal.truthy then guidVal else .str ""
  match guid with
  | .str s =>
    if endsWithReservedGuid s = false then .ok true
    else action_allowed_user user SYSTEM_ADDON_SUBMIT
  | _ => .error .attributeError

/-- `mozilla_signed_extension_submission_allowed(user, parsed_addon_data)`:
`not parsed_addon_data.get('is_mozilla_signed_extension') or
action_allowed_user(user, SYSTEM_ADDON_SUBMIT)`. -/
def mozilla_signed_extension_submission_allowed (user : User)
    (d : ParsedAddonData) : Except AclError Bool :=
  if (d.get "is_mozilla_signed_extension" .pyNone).truthy = false then
    .ok true
  else action_allowed_user user SYSTEM_ADDON_SUBMIT

/-- An object handed to the generic `check_ownership`: Python duck-typing
(`hasattr(obj, 'check_ownership')`) is modelled as an optional method. -/
structure OwnedObject where
  check_ownership : Option (Request → Bool → Bool → Bool → Bool → Bool)

/-- `check_ownership(request, obj, require_owner, require_author,
ignore_disabled, admin)`: delegate to the object's own method when it has
one, else `False`. -/
def check_ownership (request : Request) (obj : OwnedObject)
    (require_owner require_author ignore_disabled admin : Bool) : Bool :=
  match obj.check_ownership with
  | some f => f request require_owner require_author ignore_disabled admin
  | none => false

/-- A collection, as `check_collection_ownership` reads it. -/
structure Collection where
  author_id : Nat
  pk : Nat
deriving DecidableEq, Repr

/-- Modelled from the spec: the `django.conf.settings` values the acl
module reads (designated system/task account id and designated featured
themes collection id), injected as explicit configuration. -/
structure Settings where
  TASK_USER_ID : Nat
  COLLECTION_FEATURED_THEMES_ID : Nat
deriving DecidableEq, Repr

/-- `check_collection_ownership(request, collection, require_owner)`. -/
def check_collection_ownership (settings : Settings) (request : Request)
    (collection : Collection) (require_owner : Bool) :
    Except AclError Bool :=
  if request.user.is_authenticated = false then .ok false
  else if request.user.id = collection.author_id then .ok true
  else
    (if collection.author_id = settings.TASK_USER_ID then
      action_allowed_user request.user ADMIN_CURATION
    else .ok false).bind (fun isCurationAdmin =>
      if isCurationAdmin then .ok true
      else if require_owner = false then
        if collection.pk = settings.COLLECTION_FEATURED_THEMES_ID then
          action_allowed_user request.user COLLECTIONS_CONTRIBUTE
        else .ok false
      else .ok false)

/-- Modelled from the spec: `amo.STATUS_DISABLED` status constant (the
constants module is not under src/). -/
def STATUS_DISABLED : Nat := 5

/-- Modelled from the spec: `amo.AUTHOR_ROLE_OWNER` role constant. -/
def AUTHOR_ROLE_OWNER : Nat := 5

/-- Modelled from the spec: `amo.AUTHOR_ROLE_DEV` role constant. -/
def AUTHOR_ROLE_DEV : Nat := 4

/-- One row of `addon.addonuser_set`: a (user, role) record. -/
structure AddonUser where
  user_id : Nat
  role : Nat
deriving DecidableEq, Repr

/-- An add-on, as `check_addon_ownership` reads it. -/
structure Addon where
  is_deleted : Bool
  status : Nat
  addonuser_set : List AddonUser
deriving DecidableEq, Repr

/-- `check_addon_ownership(request, addon, dev, admin, ignore_disabled)`:
deny unauthenticated; deleted add-ons are never editable; `admin and
action_allowed(request, ADDONS_EDIT)` short-circuits to allow; disabled
add-ons (unless `ignore_disabled`) deny; otherwise look for an owner (or
developer, when `dev`) role row for the user. -/
def check_addon_ownership (request : Request) (addon : Addon)
    (dev admin ignore_disabled : Bool) : Except AclError Bool :=
  if request.user.is_authenticated = false then .ok false
  else if addon.is_deleted then .ok false
  else
    (if admin then action_allowed request ADDONS_EDIT
     else .ok false).bind (fun isAdmin =>
      if isAdmin then .ok true
      else if addon.status = STATUS_DISABLED ∧ ignore_disabled = false then
        .ok false
      else
        let roles := if dev then [AUTHOR_ROLE_OWNER, AUTHOR_ROLE_DEV]
          else [AUTHOR_ROLE_OWNER]
        .ok (addon.addonuser_set.any (fun au =>
          au.user_id = request.user.id ∧ au.role ∈ roles)))

/-- Spec-side predicate: rule string `r`, split on `:`, yields a (domain,
action) pair that authorizes the requested (app, action). -/
def RuleGrants (r app action : String) : Prop :=
  ∃ d a, pySplit r ':' = [d, a] ∧ (d = "*" ∨ d = app) ∧
    (a = "*" ∨ a = action ∨ action = "%")

deriving instance DecidableEq for Except

/-- Unfolding: the scan returns `false` on the exhausted rule list. -/
theorem matchRulesList_nil (app action : String) :
    matchRulesList [] app action = .ok false := rfl

/-- Unfolding: the scan on a rule that splits into exactly two parts tests
the wildcard/equality conditions and otherwise recurses. -/
theorem matchRulesList_cons_wf (r : String) (rest : List String)
    (app action d a : String) (hda : pySplit r ':' = [d, a]) :
    matchRulesList (r :: rest) app action =
      if (d = "*" ∨ d = app) ∧ (a = "*" ∨ a = action ∨ action = "%") then
        .ok true
      else matchRulesList rest app action := by
  simp only [matchRulesList, hda]

/-- Unfolding: the scan raises `ValueError` on reaching a rule whose split
does not have exactly two parts. -/
theorem matchRulesList_cons_bad (r : String) (rest : List String)
    (app action : String) (hlen : (pySplit r ':').length ≠ 2) :
    matchRulesList (r :: rest) app action = .error .valueError := by
  rcases hsp : pySplit r ':' with _ | ⟨d, _ | ⟨a, _ | ⟨x, tl⟩⟩⟩ <;>
    simp only [matchRulesList, hsp]
  exact absurd (by rw [hsp]; rfl) hlen

/-- A rule whose split has exactly two parts splits into some pair. -/
theorem exists_pair_of_split_len2 (r : String)
    (h : (pySplit r ':').length = 2) :
    ∃ d a, pySplit r ':' = [d, a] := by
  rcases hsp : pySplit r ':' with _ | ⟨d, _ | ⟨a, _ | ⟨x, tl⟩⟩⟩
  · rw [hsp] at h; simp at h
  · rw [hsp] at h; simp at h
  · exact ⟨d, a, rfl⟩
  · rw [hsp] at h; simp at h

/-- Given the concrete split of a rule, `RuleGrants` is exactly the
wildcard/equality condition on the two parts. -/
theorem ruleGrants_iff (r app action d a : String)
    (hda : pySplit r ':' = [d, a]) :
    RuleGrants r app action ↔
      ((d = "*" ∨ d = app) ∧ (a = "*" ∨ a = action ∨ action = "%")) := by
  constructor
  · rintro ⟨d', a', hda', hc⟩
    rw [hda] at hda'
    simp only [List.cons.injEq, and_true] at hda'
    obtain ⟨hd, ha⟩ := hda'
    rw [hd, ha]
    exact hc
  · intro hc
    exact ⟨d, a, hda, hc⟩

/-- Scanning a list of well-formed rules returns `true` exactly when some
rule in it grants the requested (app, action). -/
theorem matchRulesList_ok_iff (l : List String) (app action : String)
    (h : ∀ r ∈ l, (pySplit r ':').length = 2) :
    matchRulesList l app action = .ok true ↔
      ∃ r ∈ l, RuleGrants r app action := by
  induction l with
  | nil => simp [matchRulesList_nil]
  | cons r rest ih =>
    obtain ⟨d, a, hda⟩ :=
      exists_pair_of_split_len2 r (h r (List.mem_cons_self r rest))
    have hrest : ∀ s ∈ rest, (pySplit s ':').length = 2 :=
      fun s hs => h s (List.mem_cons_of_mem r hs)
    rw [matchRulesList_cons_wf r rest app action d a hda]
    by_cases hc : (d = "*" ∨ d = app) ∧ (a = "*" ∨ a = action ∨ action = "%")
    · rw [if_pos hc]
      constructor
      · intro _
        exact ⟨r, List.mem_cons_self r rest,
          (ruleGrants_iff r app action d a hda).mpr hc⟩
      · intro _; rfl
    · rw [if_neg hc, ih hrest]
      constructor
      · rintro ⟨s, hs, hg⟩
        exact ⟨s, List.mem_cons_of_mem r hs, hg⟩
      · rintro ⟨s, hs, hg⟩
        rcases List.mem_cons.mp hs with rfl | hs'
        · exact absurd ((ruleGrants_iff s app action d a hda).mp hg) hc
        · exact ⟨s, hs', hg⟩

/-- Scanning a list of well-formed rules never raises. -/
theorem matchRulesList_total (l : List String) (app action : String)
    (h : ∀ r ∈ l, (pySplit r ':').length = 2) :
    ∃ b, matchRulesList l app action = .ok b := by
  induction l with
  | nil => exact ⟨false, rfl⟩
  | cons r rest ih =>
    obtain ⟨d, a, hda⟩ :=
      exists_pair_of_split_len2 r (h r (List.mem_cons_self r rest))
    rw [matchRulesList_cons_wf r rest app action d a hda]
    by_cases hc : (d = "*" ∨ d = app) ∧ (a = "*" ∨ a = action ∨ action = "%")
    · exact ⟨true, if_pos hc⟩
    · rw [if_neg hc]
      exact ih (fun s hs => h s (List.mem_cons_of_mem r hs))

/-- The scan raises `ValueError` on reaching a rule whose split does not
have exactly two parts, provided no rule before it grants the request. -/
theorem matchRulesList_err (pre : List String) (bad : String)
    (post : List String) (app action : String)
    (hbad : (pySplit bad ':').length ≠ 2)
    (hpre : ∀ r ∈ pre, ¬ RuleGrants r app action) :
    matchRulesList (pre ++ bad :: post) app action = .error .valueError := by
  induction pre with
  | nil => exact matchRulesList_cons_bad bad post app action hbad
  | cons r pre' ih =>
    have hr : ¬ RuleGrants r app action := hpre r (List.mem_cons_self r pre')
    have hpre' : ∀ s ∈ pre', ¬ RuleGrants s app action :=
      fun s hs => hpre s (List.mem_cons_of_mem r hs)
    rw [List.cons_append]
    by_cases hlen : (pySplit r ':').length = 2
    · obtain ⟨d, a, hda⟩ := exists_pair_of_split_len2 r hlen
      rw [matchRulesList_cons_wf r _ app action d a hda]
      have hc : ¬ ((d = "*" ∨ d = app) ∧
          (a = "*" ∨ a = action ∨ action = "%")) :=
        fun hc => hr ((ruleGrants_iff r app action d a hda).mpr hc)
      rw [if_neg hc]
      exact ih hpre'
    · exact matchRulesList_cons_bad r _ app action hlen

/-- C1: for every requested (app, action) and every non-empty
comma-separated rule set in which each rule contains exactly one `:`,
`match_rules` returns true if and only if some rule (d, a) in the set
satisfies (d = `*` or d = app) and (a = `*` or a = action or
action = `%`), and returns false exactly otherwise. -/
theorem match_rules_spec (rules app action : String)
    (hne : rules ≠ "")
    (hwf : ∀ r ∈ pySplit rules ',', (pySplit r ':').length = 2) :
    (match_rules rules app action = .ok true ↔
      ∃ r ∈ pySplit rules ',', RuleGrants r app action) ∧
    (match_rules rules app action = .ok false ↔
      ¬ ∃ r ∈ pySplit rules ',', RuleGrants r app action) := by
  have hiff := matchRulesList_ok_iff (pySplit rules ',') app action hwf
  have htot := matchRulesList_total (pySplit rules ',') app action hwf
  refine ⟨hiff, ?_, ?_⟩
  · intro hfalse hex
    have htrue := hiff.mpr hex
    rw [show match_rules rules app action =
      matchRulesList (pySplit rules ',') app action from rfl] at hfalse
    rw [hfalse] at htrue
    simp at htrue
  · intro hnex
    obtain ⟨b, hb⟩ := htot
    cases b
    · exact hb
    · exact absurd (hiff.mp hb) hnex

/-- Witness for C1 at a concrete input: the rule set `"Addons:Edit"` is
well-formed and authorizes (Addons, Edit). -/
theorem match_rules_spec_witness :
    match_rules "Addons:Edit" "Addons" "Edit" = .ok true :=
  (match_rules_spec "Addons:Edit" "Addons" "Edit" (by decide)
    (by decide)).1.mpr
    ⟨"Addons:Edit", by decide,
      "Addons", "Edit", by decide, Or.inr rfl, Or.inr (Or.inl rfl)⟩

/-- The group scan on an empty group list returns `false`. -/
theorem anyGroupsMatch_nil (p : Permission) :
    anyGroupsMatch [] p = .ok false := rfl

/-- If every group's rule scan completes with a boolean, the group scan
returns `true` exactly when some group's rules match. -/
theorem anyGroupsMatch_ok_iff (groups : List AclGroup) (p : Permission)
    (h : ∀ g ∈ groups, ∃ b, match_rules g.rules p.app p.action = .ok b) :
    anyGroupsMatch groups p = .ok true ↔
      ∃ g ∈ groups, match_rules g.rules p.app p.action = .ok true := by
  induction groups with
  | nil => simp [anyGroupsMatch_nil]
  | cons g gs ih =>
    obtain ⟨b, hb⟩ := h g (List.mem_cons_self g gs)
    have hgs : ∀ g' ∈ gs, ∃ b, match_rules g'.rules p.app p.action = .ok b :=
      fun g' hg' => h g' (List.mem_cons_of_mem g hg')
    cases b
    · have hstep : anyGroupsMatch (g :: gs) p = anyGroupsMatch gs p := by
        simp only [anyGroupsMatch, hb]
      rw [hstep, ih hgs]
      constructor
      · rintro ⟨g', hg', hm⟩
        exact ⟨g', List.mem_cons_of_mem g hg', hm⟩
      · rintro ⟨g', hg', hm⟩
        rcases List.mem_cons.mp hg' with rfl | hg''
        · rw [hb] at hm; simp at hm
        · exact ⟨g', hg'', hm⟩
    · have hstep : anyGroupsMatch (g :: gs) p = .ok true := by
        simp only [anyGroupsMatch, hb]
      rw [hstep]
      constructor
      · intro _
        exact ⟨g, List.mem_cons_self g gs, hb⟩
      · intro _; rfl

/-- If every group's rule scan completes with a boolean, so does the group
scan. -/
theorem anyGroupsMatch_total (groups : List AclGroup) (p : Permission)
    (h : ∀ g ∈ groups, ∃ b, match_rules g.rules p.app p.action = .ok b) :
    ∃ b, anyGroupsMatch groups p = .ok b := by
  induction groups with
  | nil => exact ⟨false, rfl⟩
  | cons g gs ih =>
    obtain ⟨b, hb⟩ := h g (List.mem_cons_self g gs)
    cases b
    · have hstep : anyGroupsMatch (g :: gs) p = anyGroupsMatch gs p := by
        simp only [anyGroupsMatch, hb]
      rw [hstep]
      exact ih (fun g' hg' => h g' (List.mem_cons_of_mem g hg'))
    · exact ⟨true, by simp only [anyGroupsMatch, hb]⟩

/-- C2: `action_allowed_user` returns false for every unauthenticated user
without scanning any group's rules (the result is `ok false` whatever the
groups hold, even rules that would raise); for an authenticated user and a
permission in the fixed enumeration it returns true if and only if at
least one group in the user's group list has a rule set that
`match_rules` accepts for that permission's (app, action) pair, and false
exactly otherwise (stated for groups whose rule sets are well-formed, so
that every scan completes). -/
theorem action_allowed_user_spec (user : User) (p : Permission) :
    (user.is_authenticated = false → action_allowed_user user p = .ok false) ∧
    (user.is_authenticated = true → p ∈ PERMISSIONS_LIST →
      (∀ g ∈ user.groups_list, ∀ r ∈ pySplit g.rules ',',
        (pySplit r ':').length = 2) →
      ((action_allowed_user user p = .ok true ↔
        ∃ g ∈ user.groups_list,
          match_rules g.rules p.app p.action = .ok true) ∧
       (action_allowed_user user p = .ok false ↔
        ¬ ∃ g ∈ user.groups_list,
          match_rules g.rules p.app p.action = .ok true))) := by
  constructor
  · intro hanon
    simp [action_allowed_user, hanon]
  · intro hauth hp hwf
    have hdef : action_allowed_user user p =
        anyGroupsMatch user.groups_list p := by
      simp [action_allowed_user, hauth, hp]
    have htot1 : ∀ g ∈ user.groups_list,
        ∃ b, match_rules g.rules p.app p.action = .ok b :=
      fun g hg => matchRulesList_total _ _ _ (hwf g hg)
    have hiff := anyGroupsMatch_ok_iff user.groups_list p htot1
    have htot := anyGroupsMatch_total user.groups_list p htot1
    rw [hdef]
    refine ⟨hiff, ?_, ?_⟩
    · intro hfalse hex
      have htrue := hiff.mpr hex
      rw [hfalse] at htrue
      simp at htrue
    · intro hnex
      obtain ⟨b, hb⟩ := htot
      cases b
      · exact hb
      · exact absurd (hiff.mp hb) hnex

/-- Witness for C2 at concrete inputs: an unauthenticated user with a
universal-grant group is still denied, and an authenticated user whose
group carries `"Addons:Edit"` is allowed (Addons, Edit). -/
theorem action_allowed_user_spec_witness :
    action_allowed_user ⟨0, false, [⟨"*:*"⟩]⟩ ADDONS_EDIT = .ok false ∧
    action_allowed_user ⟨1, true, [⟨"Addons:Edit"⟩]⟩ ADDONS_EDIT
      = .ok true := by
  constructor
  · exact (action_allowed_user_spec ⟨0, false, [⟨"*:*"⟩]⟩ ADDONS_EDIT).1 rfl
  · exact ((action_allowed_user_spec ⟨1, true, [⟨"Addons:Edit"⟩]⟩
      ADDONS_EDIT).2 rfl (by decide) (by decide)).1.mpr
      ⟨⟨"Addons:Edit"⟩, by decide, by decide⟩

/-- C3 counterexample: on the empty rule set, `match_rules` does not
return false — `''.split(',')` is `['']` and the empty rule has no `:`,
so the tuple unpacking raises `ValueError`. -/
theorem match_rules_empty_cex :
    match_rules "" "Addons" "Edit" = .error .valueError ∧
    match_rules "" "Addons" "Edit" ≠ .ok false := by decide

/-- C3 amended: for every permission, `match_rules` with the empty string
as the rule set raises `ValueError` (the single empty rule produced by
splitting has no `:`), rather than returning false. -/
theorem match_rules_empty_raises (app action : String) :
    match_rules "" app action = .error .valueError := by
  show matchRulesList (pySplit "" ',') app action = .error .valueError
  rw [show pySplit "" ',' = [""] from rfl]
  exact matchRulesList_cons_bad "" [] app action (by decide)

/-- C5 counterexample: an unauthenticated caller with a permission outside
the fixed enumeration gets the runtime denial `ok false`, not an
assertion error — the `is_authenticated` check runs before the assert. -/
theorem action_allowed_user_unauth_no_assert_cex :
    (⟨"Bogus", "Nope"⟩ : Permission) ∉ PERMISSIONS_LIST ∧
    action_allowed_user ⟨0, false, []⟩ ⟨"Bogus", "Nope"⟩ = .ok false ∧
    action_allowed_user ⟨0, false, []⟩ ⟨"Bogus", "Nope"⟩
      ≠ .error .assertionError := by decide

/-- C5 amended: for every authenticated user, calling
`action_allowed_user` with a permission outside the fixed enumeration
raises `AssertionError`; for an unauthenticated user the function returns
false before the assert is reached. -/
theorem action_allowed_user_assert (user : User) (p : Permission)
    (hauth : user.is_authenticated = true) (hp : p ∉ PERMISSIONS_LIST) :
    action_allowed_user user p = .error .assertionError := by
  simp [action_allowed_user, hauth, hp]

/-- Witness for the amended C5 at a concrete input. -/
theorem action_allowed_user_assert_witness :
    action_allowed_user ⟨1, true, []⟩ ⟨"Bogus", "Nope"⟩
      = .error .assertionError :=
  action_allowed_user_assert ⟨1, true, []⟩ ⟨"Bogus", "Nope"⟩ rfl (by decide)

/-- C7: for every rule set containing a rule with no `:` separator, if no
rule preceding the malformed one matches the requested permission,
`match_rules` fails fast by raising `ValueError` when it reaches that
rule, rather than silently skipping it or returning a boolean. -/
theorem match_rules_missing_colon_raises (rules app action : String)
    (pre : List String) (bad : String) (post : List String)
    (hsplit : pySplit rules ',' = pre ++ bad :: post)
    (hbad : (pySplit bad ':').length = 1)
    (hpre : ∀ r ∈ pre, ¬ RuleGrants r app action) :
    match_rules rules app action = .error .valueError := by
  show matchRulesList (pySplit rules ',') app action = .error .valueError
  rw [hsplit]
  exact matchRulesList_err pre bad post app action
    (by rw [hbad]; decide) hpre

/-- Witness for C7 at a concrete input: in `"x:y,bad"` the first rule is
well-formed and does not match (Addons, Edit), and the scan raises on the
colon-less second rule. -/
theorem match_rules_missing_colon_raises_witness :
    match_rules "x:y,bad" "Addons" "Edit" = .error .valueError := by
  refine match_rules_missing_colon_raises "x:y,bad" "Addons" "Edit"
    ["x:y"] "bad" [] (by decide) (by decide) ?_
  intro r hr
  rw [show r = "x:y" from by
    rcases List.mem_singleton.mp hr with rfl; rfl]
  rintro ⟨d, a, hda, h1, h2⟩
  rw [show pySplit "x:y" ':' = ["x", "y"] from by decide] at hda
  simp only [List.cons.injEq, and_true] at hda
  obtain ⟨hd, ha⟩ := hda
  rw [← hd] at h1
  rcases h1 with h | h <;> exact absurd h (by decide)

/-- C8 counterexample: on a rule with two `:` separators, `match_rules`
raises `ValueError` (the split yields three parts) — it does not split on
the first `:` only and return true for `matches('a:b:c', (a, 'b:c'))`. -/
theorem match_rules_multicolon_cex :
    match_rules "a:b:c" "a" "b:c" = .error .valueError ∧
    match_rules "a:b:c" "a" "b:c" ≠ .ok true := by decide

/-- C8 amended: `rule.split(':')` splits on every `:`, so a rule
containing more than one `:` yields more than two parts and the tuple
unpacking raises `ValueError` when the rule is reached (no rule before it
matching); matching never proceeds on a (first-part, remainder) pair. -/
theorem match_rules_multicolon_raises (rules app action : String)
    (pre : List String) (bad : String) (post : List String)
    (hsplit : pySplit rules ',' = pre ++ bad :: post)
    (hbad : 3 ≤ (pySplit bad ':').length)
    (hpre : ∀ r ∈ pre, ¬ RuleGrants r app action) :
    match_rules rules app action = .error .valueError := by
  show matchRulesList (pySplit rules ',') app action = .error .valueError
  rw [hsplit]
  exact matchRulesList_err pre bad post app action (by omega) hpre

/-- Witness for the amended C8 at the counterexample's own input. -/
theorem match_rules_multicolon_raises_witness :
    match_rules "a:b:c" "a" "b:c" = .error .valueError :=
  match_rules_multicolon_raises "a:b:c" "a" "b:c" [] "a:b:c" []
    (by decide) (by decide) (by simp)

/-- C6 counterexample: called on parsed add-on data lacking the expected
field, the submission predicates return a boolean after substituting a
default (`False` for `is_experiment`, `''` for a missing `guid`) — no
attribute-not-found error propagates. -/
theorem submission_missing_field_cex :
    experiments_submission_allowed ⟨7, true, []⟩ ⟨[]⟩ = .ok true ∧
    reserved_guid_addon_submission_allowed ⟨7, true, []⟩ ⟨[]⟩
      = .ok true := by decide

/-- C6 amended: when the expected field is absent from the parsed add-on
data, the predicates substitute a default (`.get('is_experiment', False)`
yields `False`; `.get('guid') or ''` yields the empty string) and return
true without consulting permissions and without raising. -/
theorem submission_missing_field_defaults (user : User)
    (d : ParsedAddonData) :
    (d.entries.lookup "is_experiment" = none →
      experiments_submission_allowed user d = .ok true) ∧
    (d.entries.lookup "guid" = none →
      reserved_guid_addon_submission_allowed user d = .ok true) := by
  constructor
  · intro h
    simp [experiments_submission_allowed, ParsedAddonData.get, h,
      PyVal.truthy]
  · intro h
    simp [reserved_guid_addon_submission_allowed, ParsedAddonData.get, h,
      PyVal.truthy, show endsWithReservedGuid "" = false from by decide]

/-- Witness for the amended C6 at a concrete input: a dict holding only an
unrelated key. -/
theorem submission_missing_field_defaults_witness :
    experiments_submission_allowed ⟨8, false, []⟩ ⟨[("type", .int 2)]⟩
      = .ok true ∧
    reserved_guid_addon_submission_allowed ⟨8, false, []⟩
      ⟨[("type", .int 2)]⟩ = .ok true :=
  ⟨(submission_missing_field_defaults ⟨8, false, []⟩
      ⟨[("type", .int 2)]⟩).1 rfl,
   (submission_missing_field_defaults ⟨8, false, []⟩
      ⟨[("type", .int 2)]⟩).2 rfl⟩

/-- C4: for every authenticated user, `check_addon_ownership` returns
false when the add-on is deleted, even if `admin=True` and the user holds
the global Addons:Edit permission; when the add-on is not deleted, a user
with `admin=True` holding global Addons:Edit gets true even for a
disabled add-on; and a disabled add-on with `ignore_disabled=False`
yields false for a user (owner included) who lacks the global edit
permission. -/
theorem check_addon_ownership_spec (request : Request) (addon : Addon)
    (dev admin ignore_disabled : Bool)
    (hauth : request.user.is_authenticated = true) :
    (addon.is_deleted = true →
      check_addon_ownership request addon dev admin ignore_disabled
        = .ok false) ∧
    (addon.is_deleted = false → admin = true →
      action_allowed_user request.user ADDONS_EDIT = .ok true →
      check_addon_ownership request addon dev admin ignore_disabled
        = .ok true) ∧
    (addon.is_deleted = false → addon.status = STATUS_DISABLED →
      ignore_disabled = false →
      action_allowed_user request.user ADDONS_EDIT = .ok false →
      check_addon_ownership request addon dev admin ignore_disabled
        = .ok false) := by
  refine ⟨?_, ?_, ?_⟩
  · intro hdel
    simp [check_addon_ownership, hauth, hdel]
  · intro hdel hadm hperm
    simp [check_addon_ownership, hauth, hdel, hadm, action_allowed, hperm,
      Except.bind]
  · intro hdel hdis hig hperm
    cases admin <;>
      simp [check_addon_ownership, hauth, hdel, action_allowed, hperm,
        hdis, hig, Except.bind]

/-- Witness for C4 at concrete inputs: a global-edit admin is denied on a
deleted add-on, allowed on a disabled one; an owner without global edit
is denied on the disabled add-on. -/
theorem check_addon_ownership_spec_witness :
    check_addon_ownership ⟨⟨1, true, [⟨"Addons:Edit"⟩]⟩⟩ ⟨true, 0, []⟩
      false true false = .ok false ∧
    check_addon_ownership ⟨⟨1, true, [⟨"Addons:Edit"⟩]⟩⟩ ⟨false, 5, []⟩
      false true false = .ok true ∧
    check_addon_ownership ⟨⟨2, true, []⟩⟩ ⟨false, 5, [⟨2, 5⟩]⟩
      false true false = .ok false := by
  refine ⟨?_, ?_, ?_⟩
  · exact (check_addon_ownership_spec ⟨⟨1, true, [⟨"Addons:Edit"⟩]⟩⟩
      ⟨true, 0, []⟩ false true false rfl).1 rfl
  · exact (check_addon_ownership_spec ⟨⟨1, true, [⟨"Addons:Edit"⟩]⟩⟩
      ⟨false, 5, []⟩ false true false rfl).2.1 rfl rfl (by decide)
  · exact (check_addon_ownership_spec ⟨⟨2, true, []⟩⟩
      ⟨false, 5, [⟨2, 5⟩]⟩ false true false rfl).2.2 rfl rfl rfl
      (by decide)

/-- C9: for an authenticated user who is neither the collection's author
nor a curation admin on a task-user-owned collection,
`check_collection_ownership` with `require_owner=True` returns false —
whatever the collection's pk and the user's contribute permission — and
with `require_owner=False` it returns true exactly when the collection is
the designated featured-themes collection and the user holds the
collections-contribute permission. -/
theorem check_collection_ownership_spec (settings : Settings)
    (request : Request) (collection : Collection)
    (hauth : request.user.is_authenticated = true)
    (hnotauthor : request.user.id ≠ collection.author_id)
    (hnotadmin : collection.author_id = settings.TASK_USER_ID →
      action_allowed_user request.user ADMIN_CURATION = .ok false) :
    (check_collection_ownership settings request collection true
      = .ok false) ∧
    (check_collection_ownership settings request collection false
        = .ok true ↔
      collection.pk = settings.COLLECTION_FEATURED_THEMES_ID ∧
      action_allowed_user request.user COLLECTIONS_CONTRIBUTE
        = .ok true) := by
  have hstep : ∀ ro : Bool,
      check_collection_ownership settings request collection ro =
        (if ro = false then
          if collection.pk = settings.COLLECTION_FEATURED_THEMES_ID then
            action_allowed_user request.user COLLECTIONS_CONTRIBUTE
          else .ok false
        else .ok false) := by
    intro ro
    by_cases htask : collection.author_id = settings.TASK_USER_ID
    · have hne2 : request.user.id ≠ settings.TASK_USER_ID := by
        rw [← htask]; exact hnotauthor
      simp [check_collection_ownership, hauth, hnotauthor, htask, hne2,
        hnotadmin htask, Except.bind]
    · simp [check_collection_ownership, hauth, hnotauthor, htask,
        Except.bind]
  constructor
  · rw [hstep true]; simp
  · rw [hstep false]
    simp only [if_pos rfl]
    by_cases hpk :
        collection.pk = settings.COLLECTION_FEATURED_THEMES_ID
    · simp [hpk]
    · simp [hpk]

/-- Witness for C9 at concrete inputs: a non-author, non-curation-admin
user holding Collections:Contribute, on the featured-themes collection,
is denied with `require_owner=True` and allowed with
`require_owner=False`. -/
theorem check_collection_ownership_spec_witness :
    check_collection_ownership ⟨1, 42⟩
      ⟨⟨3, true, [⟨"Collections:Contribute"⟩]⟩⟩ ⟨2, 42⟩ true
      = .ok false ∧
    check_collection_ownership ⟨1, 42⟩
      ⟨⟨3, true, [⟨"Collections:Contribute"⟩]⟩⟩ ⟨2, 42⟩ false
      = .ok true := by
  constructor
  · exact (check_collection_ownership_spec ⟨1, 42⟩
      ⟨⟨3, true, [⟨"Collections:Contribute"⟩]⟩⟩ ⟨2, 42⟩ rfl (by decide)
      (by decide)).1
  · exact (check_collection_ownership_spec ⟨1, 42⟩
      ⟨⟨3, true, [⟨"Collections:Contribute"⟩]⟩⟩ ⟨2, 42⟩ rfl (by decide)
      (by decide)).2.mpr ⟨rfl, by decide⟩

/-- C10: for every object without a `check_ownership` attribute, the
generic `check_ownership` returns false for all flag combinations without
raising; when the object does have one, the result is exactly what the
object's own method returns for those flags. -/
theorem check_ownership_spec (request : Request) (obj : OwnedObject)
    (require_owner require_author ignore_disabled admin : Bool) :
    (obj.check_ownership = none →
      check_ownership request obj require_owner require_author
        ignore_disabled admin = false) ∧
    (∀ f, obj.check_ownership = some f →
      check_ownership request obj require_owner require_author
        ignore_disabled admin
        = f request require_owner require_author ignore_disabled admin) := by
  constructor
  · intro h
    simp [check_ownership, h]
  · intro f h
    simp [check_ownership, h]

/-- Witness for C10 at concrete inputs: an object without the method
yields false; an object whose method returns its `require_owner` argument
yields that argument. -/
theorem check_ownership_spec_witness :
    check_ownership ⟨⟨1, true, []⟩⟩ ⟨none⟩ true false true false
      = false ∧
    check_ownership ⟨⟨1, true, []⟩⟩ ⟨some (fun _ ro _ _ _ => ro)⟩
      true false false false = true := by
  constructor
  · exact (check_ownership_spec ⟨⟨1, true, []⟩⟩ ⟨none⟩
      true false true false).1 rfl
  · exact (check_ownership_spec ⟨⟨1, true, []⟩⟩
      ⟨some (fun _ ro _ _ _ => ro)⟩ true false false false).2
      (fun _ ro _ _ _ => ro) rfl
